import Mathlib

/-!
Shallow embedding of `src/memory_agent/tools.py`.

The file defines two async tool handlers, `upsert_memory` and
`search_memories`, which delegate to an injected store (`store.aput`,
`store.asearch`).  We embed them as pure functions:

* Python runtime values appearing in the payload dicts and search results
  are modelled by `PyLeaf` (a float is identified by the text Python
  prints for it);
* the ambient effects `uuid.uuid4()` and `datetime.now().isoformat()`
  are passed in as the string values they produce (`uuid4`, `now`);
  a `uuid.UUID` is modelled by its `str` rendering (which is what both
  the store key and the confirmation string use);
* the store calls are passed in as functions returning `Except E _`,
  so a backend failure is an `Except.error`;
* for claims about the persisted state we instantiate `aput` with an
  association-list store (`listPut` / `lookupRec`) in `upsert_run`.
-/

/-- Python scalar-ish runtime values used by the handlers: `None`, `str`,
`int`, a float identified by the text `str()` prints for it, and a list of
strings (the `tags` value). -/
inductive PyLeaf : Type where
  | pynone : PyLeaf
  | pystr : String → PyLeaf
  | pyint : Int → PyLeaf
  | pynum : String → PyLeaf
  | pystrlist : List String → PyLeaf
  deriving DecidableEq

/-- The single-quote character `'` used by Python `repr` of strings. -/
def squo : String := (Char.ofNat 39).toString

/-- Python `repr` of a `PyLeaf` (the rendering used inside a dict/list). -/
def pyLeafRepr : PyLeaf → String
  | PyLeaf.pynone => "None"
  | PyLeaf.pystr s => squo ++ s ++ squo
  | PyLeaf.pyint n => toString n
  | PyLeaf.pynum lit => lit
  | PyLeaf.pystrlist xs =>
      "[" ++ String.intercalate ", " (xs.map (fun s => squo ++ s ++ squo)) ++ "]"

/-- Python `str` of a `PyLeaf` (the rendering used by an f-string at top
level): a string prints bare, everything else prints as its `repr`. -/
def pyLeafStr : PyLeaf → String
  | PyLeaf.pystr s => s
  | v => pyLeafRepr v

/-- A Python dict with string keys, as stored by `store.aput`. -/
abbrev MemDict := List (String × PyLeaf)

/-- Python `str` of a string-keyed dict, e.g. `{'content': 'x'}`. -/
def dictStr (d : MemDict) : String :=
  "\x7b" ++
    String.intercalate ", "
      (d.map (fun kv => squo ++ kv.1 ++ squo ++ ": " ++ pyLeafRepr kv.2)) ++
  "\x7d"

/-- A store namespace: the two-part path `("memories", user_id)`. -/
abbrev Ns := String × String

/-- The records held by the association-list model of the store: each entry
is `(namespace, key, value)`. -/
abbrev StoreRecs := List (Ns × String × MemDict)

/-- Does record `r` live at `(ns, k)`? -/
def recMatches (ns : Ns) (k : String) (r : Ns × String × MemDict) : Bool :=
  decide (r.1 = ns ∧ r.2.1 = k)

/-- `put` on the association-list store: replace the record at `(ns, k)`
when one exists, else append a new record. -/
def listPut (st : StoreRecs) (ns : Ns) (k : String) (v : MemDict) : StoreRecs :=
  if st.any (recMatches ns k) then
    st.map (fun r => if recMatches ns k r then (ns, k, v) else r)
  else
    st ++ [(ns, k, v)]

/-- The value stored at `(ns, k)`, if any. -/
def lookupRec (st : StoreRecs) (ns : Ns) (k : String) : Option MemDict :=
  (st.find? (recMatches ns k)).map (fun r => r.2.2)

/-- Python `tags or []` from the source line `"tags": tags or []`:
`None` and the (falsy) empty list both yield `[]`. -/
def pyOrList (tags : Option (List String)) : List String :=
  match tags with
  | Option.none => []
  | Option.some l => if l.isEmpty then [] else l

/-- Python `query or ""` from the source line `q = query or ""`:
`None` and the (falsy) empty string both yield `""`. -/
def pyOrStr (query : Option String) : String :=
  match query with
  | Option.none => ""
  | Option.some s => if s.isEmpty then "" else s

/-- Python `memory_id or uuid.uuid4()`: a `uuid.UUID` is always truthy, so
this is exactly "use `memory_id` when provided, else the fresh uuid". -/
def pyOrId (memory_id : Option String) (uuid4 : String) : String :=
  match memory_id with
  | Option.none => uuid4
  | Option.some i => i

/-- Python `None` or an `int`, as it lands in the payload dict
(`"importance": importance`). -/
def pyOfOptInt : Option Int → PyLeaf
  | Option.none => PyLeaf.pynone
  | Option.some n => PyLeaf.pyint n

/-- The value dict built by `upsert_memory`:
`{"content": content, "context": context, "importance": importance,
"tags": tags or [], "timestamp": timestamp}`. -/
def payloadDict (content context : String) (importance : Option Int)
    (tags : Option (List String)) (timestamp : String) : MemDict :=
  [("content", PyLeaf.pystr content),
   ("context", PyLeaf.pystr context),
   ("importance", pyOfOptInt importance),
   ("tags", PyLeaf.pystrlist (pyOrList tags)),
   ("timestamp", PyLeaf.pystr timestamp)]

/-- Embedding of `upsert_memory`.  `uuid4` is the value `uuid.uuid4()`
returns on this call and `now` the value `datetime.now().isoformat()`
returns; `aput` is the store's (possibly failing) write.  On success the
new store state `s` is returned alongside the confirmation string. -/
def upsert_memory {E S : Type} (uuid4 now : String)
    (content context : String) (importance : Option Int)
    (tags : Option (List String)) (memory_id : Option String)
    (user_id : String)
    (aput : Ns → String → MemDict → Except E S) : Except E (S × String) :=
  let mem_id := pyOrId memory_id uuid4
  let timestamp := now
  match aput ("memories", user_id) mem_id
      (payloadDict content context importance tags timestamp) with
  | Except.error e => Except.error e
  | Except.ok s => Except.ok (s, "Stored memory " ++ mem_id)

/-- One result returned by `store.asearch`: a key, and optionally a value
dict and a score (`getattr(r, 'value', {})` / `getattr(r, 'score', None)`
supply the defaults when the attribute is missing). -/
structure SearchResult : Type where
  key : String
  value : Option MemDict
  score : Option PyLeaf
  deriving DecidableEq

/-- The f-string `str()` rendering of `getattr(r, 'value', {})`. -/
def strOfValue : Option MemDict → String
  | Option.none => dictStr []
  | Option.some d => dictStr d

/-- The f-string `str()` rendering of `getattr(r, 'score', None)`. -/
def strOfScore : Option PyLeaf → String
  | Option.none => "None"
  | Option.some v => pyLeafStr v

/-- One formatted line of `search_memories`:
`f"{r.key}: {getattr(r, 'value', {})} (score={getattr(r, 'score', None)})"`. -/
def renderLine (r : SearchResult) : String :=
  r.key ++ ": " ++ strOfValue r.value ++ " (score=" ++ strOfScore r.score ++ ")"

/-- Embedding of `search_memories`: normalise the query with `query or ""`,
call the store's search on namespace `("memories", user_id)`, then either
join the formatted lines with newlines or return `"No memories found"`. -/
def search_memories {E : Type} (query : Option String) (limit : Int)
    (user_id : String)
    (asearch : Ns → String → Int → Except E (List SearchResult)) :
    Except E String :=
  let q := pyOrStr query
  match asearch ("memories", user_id) q limit with
  | Except.error e => Except.error e
  | Except.ok results =>
      let formatted := results.map renderLine
      Except.ok
        (if formatted.isEmpty then "No memories found"
         else String.intercalate "\n" formatted)

/-- `upsert_memory` run against the association-list store model, starting
from records `st`.  The write itself cannot fail in this model. -/
def upsert_run (st : StoreRecs) (uuid4 now content context : String)
    (importance : Option Int) (tags : Option (List String))
    (memory_id : Option String) (user_id : String) :
    Except Empty (StoreRecs × String) :=
  upsert_memory uuid4 now content context importance tags memory_id user_id
    (fun ns k v => Except.ok (listPut st ns k v))

/-- The store state after an `upsert_run` (which cannot fail). -/
def runState {S : Type} : Except Empty (S × String) → S
  | Except.ok p => p.1
  | Except.error e => e.elim

/-- The confirmation string returned by an `upsert_run`. -/
def runMsg {S : Type} : Except Empty (S × String) → String
  | Except.ok p => p.2
  | Except.error e => e.elim

theorem recMatches_self (ns : Ns) (k : String) (v : MemDict) :
    recMatches ns k (ns, k, v) = true := by
  simp [recMatches]

theorem find?_map_put (st : StoreRecs) (ns : Ns) (k : String) (v : MemDict) :
    (st.map (fun r => if recMatches ns k r then (ns, k, v) else r)).find?
        (recMatches ns k) =
      if st.any (recMatches ns k) then Option.some (ns, k, v) else Option.none := by
  induction st with
  | nil => rfl
  | cons r tl ih =>
    by_cases h : recMatches ns k r = true
    · simp only [List.map_cons, h, if_true, List.any_cons, Bool.true_or]
      rw [List.find?_cons_of_pos _ (recMatches_self ns k v)]
    · simp only [List.map_cons, h, if_false, List.any_cons,
        Bool.false_or, Bool.or_eq_true]
      rw [List.find?_cons_of_neg _ (by simpa using h)]
      simpa using ih

theorem lookupRec_listPut_self (st : StoreRecs) (ns : Ns) (k : String)
    (v : MemDict) :
    lookupRec (listPut st ns k v) ns k = Option.some v := by
  unfold listPut lookupRec
  by_cases h : st.any (recMatches ns k) = true
  · rw [if_pos h, find?_map_put, if_pos h]
    rfl
  · rw [if_neg h, List.find?_append]
    have h0 : st.find? (recMatches ns k) = Option.none := by
      rw [List.find?_eq_none]
      intro x hx hpx
      exact h (List.any_eq_true.2 ⟨x, hx, hpx⟩)
    rw [h0, List.find?_cons_of_pos _ (recMatches_self ns k v)]
    rfl

theorem any_of_lookupRec_some (st : StoreRecs) (ns : Ns) (k : String)
    (v0 : MemDict) (h : lookupRec st ns k = Option.some v0) :
    st.any (recMatches ns k) = true := by
  unfold lookupRec at h
  cases hf : st.find? (recMatches ns k) with
  | none => rw [hf] at h; cases h
  | some r =>
    exact List.any_eq_true.2
      ⟨r, List.mem_of_find?_eq_some hf, List.find?_some hf⟩

theorem length_listPut_existing (st : StoreRecs) (ns : Ns) (k : String)
    (v : MemDict) (h : st.any (recMatches ns k) = true) :
    (listPut st ns k v).length = st.length := by
  unfold listPut
  rw [if_pos h, List.length_map]

theorem find?_map_put_other (st : StoreRecs) (ns ns2 : Ns) (k k2 : String)
    (v : MemDict) (h : ¬(ns2 = ns ∧ k2 = k)) :
    (st.map (fun r => if recMatches ns k r then (ns, k, v) else r)).find?
        (recMatches ns2 k2)
      = st.find? (recMatches ns2 k2) := by
  have hnew : recMatches ns2 k2 (ns, k, v) = false := by
    apply decide_eq_false
    intro hc
    exact h ⟨hc.1.symm, hc.2.symm⟩
  induction st with
  | nil => rfl
  | cons r tl ih =>
    by_cases hm : recMatches ns k r = true
    · have hrm := of_decide_eq_true hm
      have hr2 : recMatches ns2 k2 r = false := by
        apply decide_eq_false
        intro hc
        refine h ⟨?_, ?_⟩
        · rw [← hc.1, hrm.1]
        · rw [← hc.2, hrm.2]
      simp only [List.map_cons, hm, if_true]
      rw [List.find?_cons_of_neg _ (by simpa using hnew),
        List.find?_cons_of_neg _ (by simpa using hr2)]
      exact ih
    · rw [List.map_cons, if_neg hm]
      by_cases hr : recMatches ns2 k2 r = true
      · rw [List.find?_cons_of_pos _ hr, List.find?_cons_of_pos _ hr]
      · rw [List.find?_cons_of_neg _ (by simpa using hr),
          List.find?_cons_of_neg _ (by simpa using hr)]
        exact ih

theorem lookupRec_listPut_other (st : StoreRecs) (ns ns2 : Ns) (k k2 : String)
    (v : MemDict) (h : ¬(ns2 = ns ∧ k2 = k)) :
    lookupRec (listPut st ns k v) ns2 k2 = lookupRec st ns2 k2 := by
  have hnew : recMatches ns2 k2 (ns, k, v) = false := by
    apply decide_eq_false
    intro hc
    exact h ⟨hc.1.symm, hc.2.symm⟩
  unfold listPut lookupRec
  by_cases hany : st.any (recMatches ns k) = true
  · rw [if_pos hany, find?_map_put_other st ns ns2 k k2 v h]
  · rw [if_neg hany, List.find?_append,
      List.find?_cons_of_neg _ (by simpa using hnew)]
    simp

/-- C4: for every user_id, store behaviour and limit, `search_memories`
with `query = None` and with `query = ""` make the same (single) store
request — namespace `("memories", user_id)`, empty-string query, same
limit — and return identical results: the two calls are equal for every
store behaviour, and the normalised query `query or ""` is `""` in both
cases. -/
theorem search_query_sentinel {E : Type}
    (asearch : Ns → String → Int → Except E (List SearchResult))
    (limit : Int) (uid : String) :
    search_memories Option.none limit uid asearch
      = search_memories (Option.some "") limit uid asearch ∧
    pyOrStr Option.none = "" ∧ pyOrStr (Option.some "") = "" :=
  ⟨rfl, rfl, rfl⟩

/-- C5: whenever the store's search returns zero results, `search_memories`
returns exactly the literal text `"No memories found"`, which is not the
empty string. -/
theorem search_empty_results {E : Type}
    (asearch : Ns → String → Int → Except E (List SearchResult))
    (q : Option String) (limit : Int) (uid : String)
    (h : asearch ("memories", uid) (pyOrStr q) limit = Except.ok []) :
    search_memories q limit uid asearch = Except.ok "No memories found" ∧
    ("No memories found" : String) ≠ "" := by
  constructor
  · simp only [search_memories]
    rw [h]
    rfl
  · decide

/-- Witness for C5 at a concrete store behaviour returning no results. -/
theorem search_empty_results_witness :
    search_memories Option.none 10 "alice"
        (fun _ _ _ => (Except.ok [] : Except Unit (List SearchResult)))
      = Except.ok "No memories found" ∧
    ("No memories found" : String) ≠ "" :=
  search_empty_results (fun _ _ _ => Except.ok []) Option.none 10 "alice" rfl

/-- C7: a store failure propagates unchanged to the caller: if `aput`
fails with `e`, `upsert_memory` returns exactly that failure (no retry, no
alternative string, no confirmation, no further effect), and if `asearch`
fails with `e`, `search_memories` returns exactly that failure. -/
theorem store_failure_propagates {E S : Type} (e : E)
    (u4 now c x : String) (imp : Option Int) (tg : Option (List String))
    (mid : Option String) (uid : String)
    (aput : Ns → String → MemDict → Except E S)
    (q : Option String) (limit : Int)
    (asearch : Ns → String → Int → Except E (List SearchResult)) :
    (aput ("memories", uid) (pyOrId mid u4) (payloadDict c x imp tg now)
        = Except.error e →
      upsert_memory u4 now c x imp tg mid uid aput = Except.error e) ∧
    (asearch ("memories", uid) (pyOrStr q) limit = Except.error e →
      search_memories q limit uid asearch = Except.error e) := by
  constructor
  · intro h
    simp only [upsert_memory]
    rw [h]
  · intro h
    simp only [search_memories]
    rw [h]

/-- Witness for C7 at a concrete failing store behaviour. -/
theorem store_failure_propagates_witness :
    upsert_memory "u1" "t0" "c" "x" Option.none Option.none Option.none
        "alice" (fun _ _ _ => (Except.error "boom" : Except String Unit))
      = Except.error "boom" ∧
    search_memories Option.none 10 "alice"
        (fun _ _ _ => (Except.error "boom" : Except String (List SearchResult)))
      = Except.error "boom" :=
  ⟨(store_failure_propagates "boom" "u1" "t0" "c" "x" Option.none Option.none
      Option.none "alice" (fun _ _ _ => (Except.error "boom" : Except String Unit))
      Option.none 10
      (fun _ _ _ => (Except.error "boom" : Except String (List SearchResult)))).1 rfl,
   (store_failure_propagates "boom" "u1" "t0" "c" "x" Option.none Option.none
      Option.none "alice" (fun _ _ _ => (Except.error "boom" : Except String Unit))
      Option.none 10
      (fun _ _ _ => (Except.error "boom" : Except String (List SearchResult)))).2 rfl⟩

/-- C10: an explicitly supplied empty tag list is indistinguishable from
omitting `tags`: `tags = []` builds the same payload as `tags = None`
(Python `tags or []` sends both to `[]`), and the whole `upsert_memory`
call — store write and return value — is equal for every store behaviour. -/
theorem upsert_empty_tags_eq_none (u4 now c x : String) (imp : Option Int)
    (mid : Option String) (uid : String) :
    payloadDict c x imp (Option.some []) now
      = payloadDict c x imp Option.none now ∧
    ∀ (E S : Type) (aput : Ns → String → MemDict → Except E S),
      upsert_memory u4 now c x imp (Option.some []) mid uid aput
        = upsert_memory u4 now c x imp Option.none mid uid aput :=
  ⟨rfl, fun _ _ _ => rfl⟩

/-- Counterexample for C2 as stated: upserting with `importance`
unspecified stores a payload in which the `"importance"` field is
present with the value `None` — it is not absent from the stored
payload. -/
theorem upsert_importance_present_cex :
    (lookupRec
        (runState
          (upsert_run [] "u1" "t0" "c" "x" Option.none Option.none
            Option.none "alice"))
        ("memories", "alice") "u1").bind (fun p => List.lookup "importance" p)
      = Option.some PyLeaf.pynone ∧
    (lookupRec
        (runState
          (upsert_run [] "u1" "t0" "c" "x" Option.none Option.none
            Option.none "alice"))
        ("memories", "alice") "u1").bind (fun p => List.lookup "importance" p)
      ≠ Option.none := by
  constructor
  · rfl
  · decide

/-- C2 (amended): the value written to the store is exactly the payload
`{content, context, importance, tags (defaulted to empty), timestamp}`;
`content` and `context` pass through unchanged, and when `importance` is
unspecified the `"importance"` field is stored with the value `None`
(present in the payload, meaning "unspecified", not zero) rather than
being absent. -/
theorem upsert_payload_fields (st : StoreRecs) (u4 now c x : String)
    (imp : Option Int) (tg : Option (List String)) (mid : Option String)
    (uid : String) :
    lookupRec (runState (upsert_run st u4 now c x imp tg mid uid))
        ("memories", uid) (pyOrId mid u4)
      = Option.some (payloadDict c x imp tg now) ∧
    List.lookup "content" (payloadDict c x imp tg now)
      = Option.some (PyLeaf.pystr c) ∧
    List.lookup "context" (payloadDict c x imp tg now)
      = Option.some (PyLeaf.pystr x) ∧
    List.lookup "importance" (payloadDict c x imp tg now)
      = Option.some (pyOfOptInt imp) ∧
    pyOfOptInt Option.none = PyLeaf.pynone ∧
    List.lookup "tags" (payloadDict c x imp tg now)
      = Option.some (PyLeaf.pystrlist (pyOrList tg)) ∧
    List.lookup "timestamp" (payloadDict c x imp tg now)
      = Option.some (PyLeaf.pystr now) :=
  ⟨lookupRec_listPut_self st ("memories", uid) (pyOrId mid u4)
      (payloadDict c x imp tg now),
   rfl, rfl, rfl, rfl, rfl, rfl⟩

/-- C3: the stored `"tags"` field is always a (possibly empty) sequence,
never null or absent: for every `tags` argument the stored field is the
sequence `tags or []`; with `tags = None` that is the empty sequence, and
with `tags = ["a", "b"]` it is exactly `["a", "b"]` in that order. -/
theorem upsert_tags_normalized (st : StoreRecs) (u4 now c x : String)
    (imp : Option Int) (mid : Option String) (uid : String) :
    (∀ tg : Option (List String),
      (lookupRec (runState (upsert_run st u4 now c x imp tg mid uid))
          ("memories", uid) (pyOrId mid u4)).bind
          (fun p => List.lookup "tags" p)
        = Option.some (PyLeaf.pystrlist (pyOrList tg))) ∧
    (lookupRec (runState (upsert_run st u4 now c x imp Option.none mid uid))
        ("memories", uid) (pyOrId mid u4)).bind
        (fun p => List.lookup "tags" p)
      = Option.some (PyLeaf.pystrlist []) ∧
    (lookupRec
        (runState
          (upsert_run st u4 now c x imp (Option.some ["a", "b"]) mid uid))
        ("memories", uid) (pyOrId mid u4)).bind
        (fun p => List.lookup "tags" p)
      = Option.some (PyLeaf.pystrlist ["a", "b"]) := by
  have hgen : ∀ tg : Option (List String),
      (lookupRec (runState (upsert_run st u4 now c x imp tg mid uid))
          ("memories", uid) (pyOrId mid u4)).bind
          (fun p => List.lookup "tags" p)
        = Option.some (PyLeaf.pystrlist (pyOrList tg)) := by
    intro tg
    rw [show runState (upsert_run st u4 now c x imp tg mid uid)
        = listPut st ("memories", uid) (pyOrId mid u4)
            (payloadDict c x imp tg now) from rfl,
      lookupRec_listPut_self]
    rfl
  exact ⟨hgen, hgen Option.none, hgen (Option.some ["a", "b"])⟩

/-- C1: the effective identifier (`memory_id or uuid.uuid4()`) determines
both the storage key and the confirmation.  When `memory_id = i` names a
record already in the store, the record count is unchanged, record `i` is
fully replaced by the new payload, and the returned text is
`"Stored memory i"`; when `memory_id` is absent, the freshly generated
uuid is the key under which the payload is stored and the returned text
names it. -/
theorem upsert_effective_identifier (st : StoreRecs) (u4 now c x : String)
    (imp : Option Int) (tg : Option (List String)) (uid : String) :
    (∀ i v0, lookupRec st ("memories", uid) i = Option.some v0 →
      (runState (upsert_run st u4 now c x imp tg (Option.some i) uid)).length
          = st.length ∧
      lookupRec
          (runState (upsert_run st u4 now c x imp tg (Option.some i) uid))
          ("memories", uid) i = Option.some (payloadDict c x imp tg now) ∧
      runMsg (upsert_run st u4 now c x imp tg (Option.some i) uid)
          = "Stored memory " ++ i) ∧
    (lookupRec (runState (upsert_run st u4 now c x imp tg Option.none uid))
        ("memories", uid) u4 = Option.some (payloadDict c x imp tg now) ∧
     runMsg (upsert_run st u4 now c x imp tg Option.none uid)
        = "Stored memory " ++ u4) := by
  constructor
  · intro i v0 h
    refine ⟨?_, ?_, rfl⟩
    · exact length_listPut_existing st ("memories", uid) i
        (payloadDict c x imp tg now) (any_of_lookupRec_some st _ i v0 h)
    · exact lookupRec_listPut_self st ("memories", uid) i
        (payloadDict c x imp tg now)
  · exact ⟨lookupRec_listPut_self st ("memories", uid) u4
      (payloadDict c x imp tg now), rfl⟩

/-- Witness for C1 on a one-record store, updating that record and also
creating a fresh one. -/
theorem upsert_effective_identifier_witness :
    ((runState (upsert_run
        [(("memories", "alice"), "id1",
          payloadDict "a" "b" Option.none Option.none "t0")]
        "u4" "t1" "c" "x" Option.none Option.none (Option.some "id1")
        "alice")).length
      = [(("memories", "alice"), "id1",
          payloadDict "a" "b" Option.none Option.none "t0")].length ∧
     lookupRec (runState (upsert_run
        [(("memories", "alice"), "id1",
          payloadDict "a" "b" Option.none Option.none "t0")]
        "u4" "t1" "c" "x" Option.none Option.none (Option.some "id1")
        "alice")) ("memories", "alice") "id1"
      = Option.some (payloadDict "c" "x" Option.none Option.none "t1") ∧
     runMsg (upsert_run
        [(("memories", "alice"), "id1",
          payloadDict "a" "b" Option.none Option.none "t0")]
        "u4" "t1" "c" "x" Option.none Option.none (Option.some "id1")
        "alice")
      = "Stored memory " ++ "id1") ∧
    (lookupRec (runState (upsert_run
        [(("memories", "alice"), "id1",
          payloadDict "a" "b" Option.none Option.none "t0")]
        "u4" "t1" "c" "x" Option.none Option.none Option.none "alice"))
        ("memories", "alice") "u4"
      = Option.some (payloadDict "c" "x" Option.none Option.none "t1") ∧
     runMsg (upsert_run
        [(("memories", "alice"), "id1",
          payloadDict "a" "b" Option.none Option.none "t0")]
        "u4" "t1" "c" "x" Option.none Option.none Option.none "alice")
      = "Stored memory " ++ "u4") :=
  ⟨(upsert_effective_identifier
      [(("memories", "alice"), "id1",
        payloadDict "a" "b" Option.none Option.none "t0")]
      "u4" "t1" "c" "x" Option.none Option.none "alice").1 "id1"
      (payloadDict "a" "b" Option.none Option.none "t0") rfl,
   (upsert_effective_identifier
      [(("memories", "alice"), "id1",
        payloadDict "a" "b" Option.none Option.none "t0")]
      "u4" "t1" "c" "x" Option.none Option.none "alice").2⟩

/-- C8: operations for user `u1` touch only namespace `("memories", u1)`.
An upsert for `u1` leaves every record of any other user `u2` unchanged,
and the outcome of a search for `u1` depends only on the store's behaviour
on namespace `("memories", u1)` — so neither operation reads or writes
records stored under `u2`. -/
theorem user_namespace_isolation (u1 u2 : String) (h : u1 ≠ u2) :
    (∀ (st : StoreRecs) (u4 now c x : String) (imp : Option Int)
        (tg : Option (List String)) (mid : Option String) (k : String),
      lookupRec (runState (upsert_run st u4 now c x imp tg mid u1))
          ("memories", u2) k = lookupRec st ("memories", u2) k) ∧
    (∀ (E : Type)
        (as1 as2 : Ns → String → Int → Except E (List SearchResult))
        (q : Option String) (limit : Int),
      (∀ s l, as1 ("memories", u1) s l = as2 ("memories", u1) s l) →
      search_memories q limit u1 as1 = search_memories q limit u1 as2) := by
  constructor
  · intro st u4 now c x imp tg mid k
    apply lookupRec_listPut_other
    intro hc
    exact h (congrArg Prod.snd hc.1).symm
  · intro E as1 as2 q limit hag
    simp only [search_memories]
    rw [hag]

/-- Witness for C8 with users `alice` and `bob`: bob's record survives
alice's upsert, and alice's search ignores behaviour outside her
namespace. -/
theorem user_namespace_isolation_witness :
    lookupRec (runState (upsert_run [(("memories", "bob"), "k", [])]
        "u4" "t1" "c" "x" Option.none Option.none Option.none "alice"))
        ("memories", "bob") "k"
      = lookupRec [(("memories", "bob"), "k", [])] ("memories", "bob") "k" ∧
    search_memories Option.none 10 "alice"
        (fun _ _ _ => (Except.ok [] : Except Unit (List SearchResult)))
      = search_memories Option.none 10 "alice"
        (fun ns _ _ =>
          if ns.2 = "alice" then Except.ok [] else Except.error ()) :=
  ⟨(user_namespace_isolation "alice" "bob" (by decide)).1
      [(("memories", "bob"), "k", [])] "u4" "t1" "c" "x" Option.none
      Option.none Option.none "k",
   (user_namespace_isolation "alice" "bob" (by decide)).2 Unit
      (fun _ _ _ => Except.ok [])
      (fun ns _ _ => if ns.2 = "alice" then Except.ok [] else Except.error ())
      Option.none 10 (fun _ _ => rfl)⟩

/-- C9: the stored timestamp is the ISO rendering the clock produced at
the instant of that write (`datetime.now().isoformat()`), independent of
every caller-supplied argument; under a strictly increasing clock, two
sequential upserts of the same `memory_id` store the two clock readings,
which are different and non-decreasing. -/
theorem upsert_timestamp_freshness (st : StoreRecs)
    (u4a u4b now1 now2 c1 x1 c2 x2 : String) (imp1 imp2 : Option Int)
    (tg1 tg2 : Option (List String)) (i uid : String) (h : now1 < now2) :
    (lookupRec
        (runState (upsert_run st u4a now1 c1 x1 imp1 tg1 (Option.some i) uid))
        ("memories", uid) i).bind (fun p => List.lookup "timestamp" p)
      = Option.some (PyLeaf.pystr now1) ∧
    (lookupRec
        (runState (upsert_run
          (runState (upsert_run st u4a now1 c1 x1 imp1 tg1 (Option.some i) uid))
          u4b now2 c2 x2 imp2 tg2 (Option.some i) uid))
        ("memories", uid) i).bind (fun p => List.lookup "timestamp" p)
      = Option.some (PyLeaf.pystr now2) ∧
    now1 ≠ now2 ∧ now1 ≤ now2 := by
  refine ⟨?_, ?_, ne_of_lt h, le_of_lt h⟩
  · rw [show runState (upsert_run st u4a now1 c1 x1 imp1 tg1 (Option.some i) uid)
        = listPut st ("memories", uid) i (payloadDict c1 x1 imp1 tg1 now1)
        from rfl,
      lookupRec_listPut_self]
    rfl
  · rw [show runState (upsert_run
          (runState (upsert_run st u4a now1 c1 x1 imp1 tg1 (Option.some i) uid))
          u4b now2 c2 x2 imp2 tg2 (Option.some i) uid)
        = listPut
            (runState (upsert_run st u4a now1 c1 x1 imp1 tg1 (Option.some i) uid))
            ("memories", uid) i (payloadDict c2 x2 imp2 tg2 now2)
        from rfl,
      lookupRec_listPut_self]
    rfl

/-- Witness for C9 at two concrete, strictly increasing ISO readings. -/
theorem upsert_timestamp_freshness_witness :
    (lookupRec
        (runState (upsert_run [] "u4" "2024-01-01T00:00:00" "c1" "x1"
          Option.none Option.none (Option.some "id1") "alice"))
        ("memories", "alice") "id1").bind (fun p => List.lookup "timestamp" p)
      = Option.some (PyLeaf.pystr "2024-01-01T00:00:00") ∧
    (lookupRec
        (runState (upsert_run
          (runState (upsert_run [] "u4" "2024-01-01T00:00:00" "c1" "x1"
            Option.none Option.none (Option.some "id1") "alice"))
          "u5" "2024-01-01T00:00:01" "c2" "x2" Option.none Option.none
          (Option.some "id1") "alice"))
        ("memories", "alice") "id1").bind (fun p => List.lookup "timestamp" p)
      = Option.some (PyLeaf.pystr "2024-01-01T00:00:01") ∧
    ("2024-01-01T00:00:00" : String) ≠ "2024-01-01T00:00:01" ∧
    ("2024-01-01T00:00:00" : String) ≤ "2024-01-01T00:00:01" :=
  upsert_timestamp_freshness [] "u4" "u5" "2024-01-01T00:00:00"
    "2024-01-01T00:00:01" "c1" "x1" "c2" "x2" Option.none Option.none
    Option.none Option.none "id1" "alice"
    (by rw [String.lt_iff_toList_lt]; decide)

/-- C6: on a non-empty result sequence, `search_memories` renders one line
per result in the store's order, joined by newlines, each line being
`"<key>: <value> (score=<score>)"`; a result lacking a value renders it as
the empty mapping and a missing score renders as `None` — e.g. key
`"abc"`, value `{'content': 'x'}`, score `0.9` renders as
`"abc: {'content': 'x'} (score=0.9)"` (the braces and single quotes of
that literal are built from `squo` and escaped braces below). -/
theorem search_result_rendering {E : Type}
    (asearch : Ns → String → Int → Except E (List SearchResult))
    (q : Option String) (limit : Int) (uid : String)
    (results : List SearchResult)
    (h : asearch ("memories", uid) (pyOrStr q) limit = Except.ok results)
    (hne : results ≠ []) :
    search_memories q limit uid asearch
      = Except.ok (String.intercalate "\n" (results.map renderLine)) ∧
    renderLine ⟨"abc", Option.some [("content", PyLeaf.pystr "x")],
        Option.some (PyLeaf.pynum "0.9")⟩
      = "abc: \x7b" ++ squo ++ "content" ++ squo ++ ": " ++ squo ++ "x"
          ++ squo ++ "\x7d (score=0.9)" ∧
    renderLine ⟨"k", Option.none, Option.none⟩
      = "k: \x7b\x7d (score=None)" := by
  refine ⟨?_, by decide, by decide⟩
  cases results with
  | nil => exact absurd rfl hne
  | cons r rs =>
      simp only [search_memories]
      rw [h]
      rfl

/-- Witness for C6 on a store behaviour returning one concrete result. -/
theorem search_result_rendering_witness :
    search_memories Option.none 10 "alice"
        (fun _ _ _ => (Except.ok
          [⟨"abc", Option.some [("content", PyLeaf.pystr "x")],
            Option.some (PyLeaf.pynum "0.9")⟩]
          : Except Unit (List SearchResult)))
      = Except.ok (String.intercalate "\n"
          ([(⟨"abc", Option.some [("content", PyLeaf.pystr "x")],
            Option.some (PyLeaf.pynum "0.9")⟩ : SearchResult)].map renderLine)) ∧
    renderLine ⟨"abc", Option.some [("content", PyLeaf.pystr "x")],
        Option.some (PyLeaf.pynum "0.9")⟩
      = "abc: \x7b" ++ squo ++ "content" ++ squo ++ ": " ++ squo ++ "x"
          ++ squo ++ "\x7d (score=0.9)" ∧
    renderLine ⟨"k", Option.none, Option.none⟩
      = "k: \x7b\x7d (score=None)" :=
  search_result_rendering
    (fun _ _ _ => Except.ok
      [⟨"abc", Option.some [("content", PyLeaf.pystr "x")],
        Option.some (PyLeaf.pynum "0.9")⟩])
    Option.none 10 "alice"
    [⟨"abc", Option.some [("content", PyLeaf.pystr "x")],
      Option.some (PyLeaf.pynum "0.9")⟩]
    rfl (List.cons_ne_nil _ _)
